import Mathlib

/-!
Verification model of the web-lead-generator scraping pipeline
(`src/scraper/google_scraper.py`, `src/scraper/google_scraper_v2.py`,
`src/scraper/general_business/general_business_scraper.py`,
`src/scraper/general_business/general_business_finder.py`,
`src/scraper/config.py`).

The Python code is shallowly embedded: the database is a list of rows, the
browser is an oracle describing what each page interaction yields, failures
of external collaborators are injected explicitly, and `CURRENT_TIMESTAMP`
is an explicit natural-number clock.  Python floats are modelled as exact
rationals.
-/

set_option autoImplicit false

namespace WebLeadGen

/-- Transient business record, the Python dict `business` built by the
extractors.  `dict.get` on a missing key yields `None`, so optional fields
are `Option`; `has_website` is read with `get('has_website', False)` and is
always set by the extractors, so it is a plain `Bool`. -/
structure BRecord where
  name : Option String
  phone : Option String
  address : Option String
  rating : Option ℚ
  gbp_url : Option String
  has_website : Bool
  website_url : Option String
deriving DecidableEq

/-- A persisted `businesses` row, with exactly the columns the INSERT and
UPDATE statements of `save_business` touch.  The INSERT statement does not
supply `last_scraped`, so a freshly inserted row carries `none` there; only
the UPDATE statements write `CURRENT_TIMESTAMP` into it. -/
structure Row where
  name : Option String
  phone : Option String
  address : Option String
  city : String
  category : String
  gbp_url : Option String
  has_website : Bool
  website_url : Option String
  google_rating : Option ℚ
  last_scraped : Option Nat
deriving DecidableEq

/-- Python truthiness of `business.get('gbp_url')`: `None` and the empty
string are falsy, every other string is truthy. -/
def truthy : Option String → Bool
  | none => false
  | some s => !s.isEmpty

/-- `location.split(',')[0]`: Python splits on every comma and index 0 is the
prefix before the first comma; a location with no comma is used whole. -/
def cityOf (location : String) : String :=
  ⟨location.data.takeWhile (fun c => !(c == ','))⟩

/-- SQL equality of a nullable column against a query parameter: comparison
with NULL (on either side) is never true, so a NULL parameter or a NULL
column value matches no row. -/
def sqlEq (col param : Option String) : Bool :=
  match col, param with
  | some a, some b => a == b
  | _, _ => false

/-- The WHERE clause shared by the SELECT and the UPDATE of `save_business`
(identical in all three scraper variants): when the record's `gbp_url` is
truthy the row is matched by `gbp_url`, otherwise by the pair
`(name, location.split(',')[0])`. -/
def matchesBusiness (b : BRecord) (location : String) (r : Row) : Bool :=
  if truthy b.gbp_url then sqlEq r.gbp_url b.gbp_url
  else sqlEq r.name b.name && r.city == cityOf location

/-- The UPDATE taken when the record has a truthy `gbp_url`: it overwrites
name, phone, address, has_website, website_url and google_rating and
refreshes `last_scraped`; `city`, `category` and `gbp_url` are untouched. -/
def updateByUrl (b : BRecord) (now : Nat) (r : Row) : Row :=
  { r with
    name := b.name
    phone := b.phone
    address := b.address
    has_website := b.has_website
    website_url := b.website_url
    google_rating := b.rating
    last_scraped := some now }

/-- The UPDATE taken on the `(name, city)` fallback path: as `updateByUrl`
but the name (part of the lookup key) is not rewritten. -/
def updateByNameCity (b : BRecord) (now : Nat) (r : Row) : Row :=
  { r with
    phone := b.phone
    address := b.address
    has_website := b.has_website
    website_url := b.website_url
    google_rating := b.rating
    last_scraped := some now }

/-- The INSERT of `save_business`: the stored city is
`location.split(',')[0]` and `last_scraped` is not among the inserted
columns. -/
def insertRow (b : BRecord) (location category : String) : Row :=
  { name := b.name
    phone := b.phone
    address := b.address
    city := cityOf location
    category := category
    gbp_url := b.gbp_url
    has_website := b.has_website
    website_url := b.website_url
    google_rating := b.rating
    last_scraped := none }

/-- The scraper's persistent state: the committed `businesses` table plus the
Python-side counters of the scraper object, and a count of errors written to
the log. -/
structure Store where
  rows : List Row
  new_businesses_added : Nat
  businesses_without_websites : Nat
  businesses_found : Nat
  errors_logged : Nat
deriving DecidableEq

/-- Which database call inside `save_business`'s try block raises, if any:
the SELECT, the UPDATE/INSERT, or the COMMIT. -/
inductive FailPoint where
  | select
  | write
  | commit
deriving DecidableEq

/-- `save_business(business, location, category)` of all three scraper
variants (they are textually identical here).  The SELECT takes the first
matching row; on a hit all matching rows are UPDATEd, on a miss one row is
INSERTed and `new_businesses_added` incremented; after COMMIT,
`businesses_without_websites` is incremented for a record without a website.
The whole body sits in `try/except`: an injected failure is logged and the
transaction rolled back, so the committed rows are unchanged and the
function still returns a state instead of raising.  The counters live on
the Python object, not in the database, and the new-business counter is
incremented before COMMIT, so it is not undone when COMMIT itself fails. -/
def save_business (s : Store) (b : BRecord) (location category : String)
    (now : Nat) (failure : Option FailPoint) : Store :=
  if failure = some FailPoint.select then
    { s with errors_logged := s.errors_logged + 1 }
  else
    match s.rows.find? (matchesBusiness b location) with
    | some _ =>
      if failure ≠ none then
        { s with errors_logged := s.errors_logged + 1 }
      else
        let rows2 := s.rows.map fun r =>
          if matchesBusiness b location r then
            (if truthy b.gbp_url then updateByUrl b now r else updateByNameCity b now r)
          else r
        let s2 := { s with rows := rows2 }
        if b.has_website then s2
        else { s2 with
               businesses_without_websites := s2.businesses_without_websites + 1 }
    | none =>
      if failure = some FailPoint.write then
        { s with errors_logged := s.errors_logged + 1 }
      else if failure = some FailPoint.commit then
        { s with
          new_businesses_added := s.new_businesses_added + 1
          errors_logged := s.errors_logged + 1 }
      else
        let s2 := { s with
                    rows := s.rows ++ [insertRow b location category]
                    new_businesses_added := s.new_businesses_added + 1 }
        if b.has_website then s2
        else { s2 with
               businesses_without_websites := s2.businesses_without_websites + 1 }

/-- The per-record loop of `run_scrape` (v1/v2 variants): every extracted
record is handed to `save_business` and `businesses_found` is incremented;
`failures` injects a database failure per record index. -/
def process_businesses : Store → List BRecord → String → String → Nat →
    (Nat → Option FailPoint) → Store
  | s, [], _, _, _, _ => s
  | s, b :: bs, location, category, now, failures =>
    let s2 := save_business s b location category now (failures 0)
    process_businesses
      { s2 with businesses_found := s2.businesses_found + 1 }
      bs location category now (fun i => failures (i + 1))
/-- Which of the scraper's four resource handles are set (not `None`) when
`cleanup` runs. -/
structure Handles where
  page : Bool
  context : Bool
  browser : Bool
  db_conn : Bool
deriving DecidableEq

/-- Which of the four `close()` calls raises when attempted. -/
structure CloseFails where
  page : Bool
  context : Bool
  browser : Bool
  db_conn : Bool
deriving DecidableEq

/-- What one run of `cleanup` did: which close calls were attempted, and
whether an exception escaped `cleanup` itself. -/
structure CleanupResult where
  pageAttempted : Bool
  contextAttempted : Bool
  browserAttempted : Bool
  dbAttempted : Bool
  raised : Bool
deriving DecidableEq

/-- `cleanup` (`google_scraper.py` lines 447-456): four sequential
`if handle: await handle.close()` statements with no per-handle exception
handling, so an exception raised by one close propagates out of `cleanup`
and the remaining closes are never attempted. -/
def cleanup (h : Handles) (cf : CloseFails) : CleanupResult :=
  if h.page && cf.page then ⟨h.page, false, false, false, true⟩
  else if h.context && cf.context then ⟨h.page, h.context, false, false, true⟩
  else if h.browser && cf.browser then
    ⟨h.page, h.context, h.browser, false, true⟩
  else if h.db_conn && cf.db_conn then
    ⟨h.page, h.context, h.browser, h.db_conn, true⟩
  else ⟨h.page, h.context, h.browser, h.db_conn, false⟩

/-- Which steps of `run_scrape` raise. -/
structure RunFails where
  init_browser : Bool
  init_database : Bool
  create_scrape_run : Bool
  crawl_loop : Bool
deriving DecidableEq

/-- Outcome of one `run_scrape` call: whether the `finally` block's
`cleanup()` ran and what it did, whether an exception escaped
`run_scrape`, and the final status written to the run ledger. -/
structure RunOutcome where
  cleanupRan : Bool
  cleanupResult : Option CleanupResult
  raised : Bool
  finalStatus : Option String
deriving DecidableEq

/-- Control flow of `run_scrape` (`google_scraper.py` lines 362-411):
`init_browser()`, `init_database()` and `create_scrape_run()` run before
the `try`, so an exception in any of them leaves `run_scrape` with the
`finally` cleanup never executed; once the `try` block is entered, the
`finally` invokes `cleanup` on every exit path.  A crawl exception
finalises the run as failed and is re-raised after cleanup; on normal
completion the run is finalised as completed and an exception escapes only
if `cleanup` itself raised. -/
def run_scrape (rf : RunFails) (cf : CloseFails) : RunOutcome :=
  if rf.init_browser then ⟨false, none, true, none⟩
  else if rf.init_database then ⟨false, none, true, none⟩
  else if rf.create_scrape_run then ⟨false, none, true, none⟩
  else
    let c := cleanup ⟨true, true, true, true⟩ cf
    if rf.crawl_loop then ⟨true, some c, true, some "failed"⟩
    else ⟨true, some c, c.raised, some "completed"⟩

/-- Oracle for one `search_businesses(location, category)` query of
`google_scraper.py`: whether `page.goto` times out, whether the
`.rllt__details` results marker ever appears within the bounded wait, what
`extract_businesses_from_page` yields on each result page, and whether an
`a#pnnext` next-page button exists after each page. -/
structure QueryOracle where
  gotoTimeout : Bool
  marker : Bool
  pageRecords : Nat → List BRecord
  hasNext : Nat → Bool

/-- The pagination while-loop of `search_businesses`
(`while page_count < max_pages and await self.has_next_page()`), with the
fuel `max_pages - page_count` making the loop condition structural. -/
def morePages (o : QueryOracle) : Nat → Nat → List BRecord
  | 0, _ => []
  | fuel + 1, pc =>
    if o.hasNext pc then o.pageRecords pc ++ morePages o fuel (pc + 1)
    else []

/-- `search_businesses` (`google_scraper.py` lines 110-156).  The function
is total: a goto timeout or any other exception is caught by the
query-level `except` clauses and yields `[]`, and a query whose results
marker never appears returns `[]` from the inner `try/except`. -/
def search_businesses (o : QueryOracle) (maxPages : Nat) : List BRecord :=
  if o.gotoTimeout then []
  else if !o.marker then []
  else o.pageRecords 0 ++ morePages o (maxPages - 1) 1

/-- The location × category cross product in the order the `run_scrape`
nested loops iterate it. -/
def crawl_pairs (locations categories : List String) :
    List (String × String) :=
  locations.flatMap fun l => categories.map fun c => (l, c)

/-- The crawl loop of `run_scrape`: every pair is queried in order (no
query aborts the loop, `search_businesses` being total), and each pair is
recorded with the records its query returned. -/
def run_queries (oracle : String × String → QueryOracle) (maxPages : Nat) :
    List (String × String) → List ((String × String) × List BRecord)
  | [] => []
  | p :: ps =>
    (p, search_businesses (oracle p) maxPages) :: run_queries oracle maxPages ps

/-- Events observable at the browser boundary during a crawl: the two
outbound navigations (the initial search `goto`, the pagination click),
the pacing wait (`polite_delay`, a uniformly random suspension in the
configured `[SCRAPE_DELAY_MIN, SCRAPE_DELAY_MAX]` interval), and the
request-counting `check_session_break`. -/
inductive Ev where
  | navGoto
  | navClick
  | politeWait
  | sessionCheck
deriving DecidableEq

/-- Whether an event is an outbound navigation action. -/
def Ev.isNav : Ev → Bool
  | navGoto => true
  | navClick => true
  | _ => false

/-- Events of `click_next_page` (`google_scraper.py` lines 272-276): the
session check, then the click; no pacing wait of its own. -/
def click_next_page_tr : List Ev := [Ev.sessionCheck, Ev.navClick]

/-- Events of the pagination while-loop of `search_businesses`: each
iteration is `click_next_page()` then `polite_delay()` (the wait after the
navigation), with fuel `max_pages - page_count` as in `morePages`. -/
def paginate_tr (hasNext : Nat → Bool) : Nat → Nat → List Ev
  | 0, _ => []
  | fuel + 1, pc =>
    if hasNext pc then
      click_next_page_tr ++ [Ev.politeWait] ++ paginate_tr hasNext fuel (pc + 1)
    else []

/-- Events of one `search_businesses` query (lines 117-127): the session
check, the search `goto`, and only then `polite_delay`; pagination events
follow when the results marker appeared. -/
def search_tr (marker : Bool) (hasNext : Nat → Bool) (maxPages : Nat) :
    List Ev :=
  [Ev.sessionCheck, Ev.navGoto, Ev.politeWait] ++
    (if marker then paginate_tr hasNext (maxPages - 1) 1 else [])

/-- Events of the crawl loop of `run_scrape`: one query per (location,
category) pair — given here by its marker flag and next-page oracle — each
followed by the inter-search `polite_delay`. -/
def run_tr (maxPages : Nat) : List (Bool × (Nat → Bool)) → List Ev
  | [] => []
  | q :: qs =>
    search_tr q.1 q.2 maxPages ++ [Ev.politeWait] ++ run_tr maxPages qs

/-- The pacing discipline the claim states: every navigation event of a
trace has some earlier pacing wait. -/
def navPrecededByWait (t : List Ev) : Prop :=
  ∀ i : Fin t.length, (t.get i).isNav = true →
    ∃ j : Fin t.length, j.val < i.val ∧ t.get j = Ev.politeWait

/-- The pacing discipline the code implements: every navigation event is
immediately followed by a pacing wait (in particular no trace ends on a
navigation). -/
def navFollowedByWait : List Ev → Bool
  | [] => true
  | [e] => !e.isNav
  | e :: f :: rest =>
    (!e.isNav || (f == Ev.politeWait)) && navFollowedByWait (f :: rest)

/-- The per-listing loop body iterator of the click-through scrapers
(`general_business_scraper.py` lines 176-183, `google_scraper_v2.py` lines
146-153): starting at index `i` with `fuel = min(20, len(business_links)) - i`
iterations left, re-resolve the listing collection (`resolve i`, the fresh
`query_selector_all('.rllt__details')`) before each index access, break
when the index is at or beyond the re-resolved collection's length, and
otherwise access element `i`. -/
def listing_loop_go {α : Type} (resolve : Nat → List α) :
    Nat → Nat → List (Nat × α)
  | 0, _ => []
  | fuel + 1, i =>
    let cur := resolve i
    if h : i < cur.length then
      (i, cur.get ⟨i, h⟩) :: listing_loop_go resolve fuel (i + 1)
    else []

/-- The per-listing loop `for i in range(min(20, len(business_links)))`:
at most 20 listings per page, each index access guarded by the re-resolved
length check. -/
def listing_loop {α : Type} (resolve : Nat → List α) (nLinks : Nat) :
    List (Nat × α) :=
  listing_loop_go resolve (min 20 nLinks) 0

/-- The detail fields `extract_business_details` produces besides the name
(which the caller passes in) and the gbp url (which the caller sets). -/
structure DetailFields where
  phone : Option String
  address : Option String
  rating : Option ℚ
  has_website : Bool
  website_url : Option String
deriving DecidableEq

/-- Name resolution of the click-through per-listing loop:
`business_name = await name_elem.inner_text() if name_elem else
f"Business {i+1}"` — a listing with no extractable name gets a placeholder
name instead of being discarded. -/
def listing_name (extracted : Option String) (i : Nat) : String :=
  match extracted with
  | some s => s
  | none => "Business " ++ toString (i + 1)

/-- One listing of the click-through loop after the click: when
`extract_business_details` returns a record it carries the (possibly
defaulted) listing name and the page's current url as `gbp_url`, and is
handed to the persistence callback; a `None` detail extraction produces no
record. -/
def process_listing (extractedName : Option String) (i : Nat)
    (detail : Option DetailFields) (currentUrl : String) : Option BRecord :=
  match detail with
  | none => none
  | some d => some
      { name := some (listing_name extractedName i)
        phone := d.phone
        address := d.address
        rating := d.rating
        gbp_url := some currentUrl
        has_website := d.has_website
        website_url := d.website_url }

/-- The name filter of the v1 page extractor (`google_scraper.py` lines
257-258): `if business['name']:` — a listing is appended only when the
extracted name is truthy (neither `None` nor empty). -/
def keep_listing_v1 (name : Option String) : Bool := truthy name

/-- The fixed text of the first phone pattern, `href="tel:`. -/
def telKey : List Char := ("href=\"tel:").data

/-- The `([^"]+)"` tail of the tel pattern: the captured characters up to a
closing double quote (`none` when no closing quote follows). -/
def takeToQuote : List Char → Option (List Char)
  | [] => none
  | c :: rest => if c == '"' then some [] else (takeToQuote rest).map (c :: ·)

/-- Capture of `([^"]+)"`: at least one non-quote character before the
closing quote. -/
def captureToQuote (l : List Char) : Option (List Char) :=
  match takeToQuote l with
  | none => none
  | some cap => if cap.isEmpty then none else some cap

/-- Attempt of the pattern `href="tel:([^"]+)"` at one position. -/
def matchTelAt (l : List Char) : Option (List Char) :=
  if telKey.isPrefixOf l then captureToQuote (l.drop telKey.length)
  else none

/-- `re.search`: scan positions left to right, returning the first
position's capture. -/
def scanFor (m : List Char → Option (List Char)) :
    List Char → Option (List Char)
  | [] => none
  | c :: rest =>
    match m (c :: rest) with
    | some cap => some cap
    | none => scanFor m rest

/-- The separator class `[-.\s]` of the phone patterns. -/
def isSepChar (c : Char) : Bool := c == '-' || c == '.' || c.isWhitespace

/-- Exactly `n` digits from the front of the list. -/
def takeDigits : Nat → List Char → Option (List Char × List Char)
  | 0, l => some ([], l)
  | _ + 1, [] => none
  | n + 1, c :: rest =>
    if c.isDigit then (takeDigits n rest).map fun p => (c :: p.1, p.2)
    else none

/-- The phone core `\(?\d{3}\)?[-.\s]?\d{3}[-.\s]?\d{4}` (without the
optional parentheses when `allowParen` is false, as in the fourth
pattern), matched greedily at one position; each optional single-character
piece is deterministic here because a consumed-but-failing optional char
also fails the following mandatory digit. -/
def matchPhoneCore (allowParen : Bool) (l : List Char) :
    Option (List Char × List Char) :=
  let p1 := match l with
    | '(' :: r => if allowParen then (['('], r) else (([] : List Char), l)
    | _ => ([], l)
  match takeDigits 3 p1.2 with
  | none => none
  | some (d1, l2) =>
    let p2 := match l2 with
      | ')' :: r => if allowParen then ([')'], r) else (([] : List Char), l2)
      | _ => ([], l2)
    let p3 := match p2.2 with
      | c :: r => if isSepChar c then ([c], r) else (([] : List Char), p2.2)
      | _ => ([], p2.2)
    match takeDigits 3 p3.2 with
    | none => none
    | some (d2, l4) =>
      let p4 := match l4 with
        | c :: r => if isSepChar c then ([c], r) else (([] : List Char), l4)
        | _ => ([], l4)
      match takeDigits 4 p4.2 with
      | none => none
      | some (d3, l5) =>
        some (p1.1 ++ d1 ++ p2.1 ++ p3.1 ++ d2 ++ p4.1 ++ d3, l5)

/-- The alternation `(?:Phone:|Call|📞|☎️)` opening the second phone
pattern (the v2 file stores the two emoji alternatives in mojibake form;
their matching role is identical). -/
def p2Heads : List (List Char) :=
  [("Phone:").data, ("Call").data, ("📞").data, ("☎️").data]

/-- Attempt of `(?:Phone:|Call|📞|☎️)\s*:?\s*(core)` at one position. -/
def matchLabeledAt (l : List Char) : Option (List Char) :=
  match p2Heads.find? (fun p => p.isPrefixOf l) with
  | none => none
  | some p =>
    let l1 := (l.drop p.length).dropWhile Char.isWhitespace
    let l2 := match l1 with
      | ':' :: r => r
      | _ => l1
    let l3 := l2.dropWhile Char.isWhitespace
    (matchPhoneCore true l3).map Prod.fst

/-- Attempt of `>\s*(core)\s*<` (phone between markup boundaries) at one
position. -/
def matchMarkupAt (l : List Char) : Option (List Char) :=
  match l with
  | '>' :: r =>
    match matchPhoneCore true (r.dropWhile Char.isWhitespace) with
    | none => none
    | some (cap, rest) =>
      match rest.dropWhile Char.isWhitespace with
      | '<' :: _ => some cap
      | _ => none
  | _ => none

/-- A regex word character, for the `\b` boundaries of the fourth
pattern. -/
def isWordChar (c : Char) : Bool := c.isAlphanum || c == '_'

/-- Attempt of `\b(\d{3}[-.\s]?\d{3}[-.\s]?\d{4})\b` at one position,
`prev` being the character before the position. -/
def matchBareAt (prev : Option Char) (l : List Char) : Option (List Char) :=
  let boundaryBefore := match prev with
    | none => true
    | some p => !isWordChar p
  if boundaryBefore then
    match matchPhoneCore false l with
    | none => none
    | some (cap, rest) =>
      match rest with
      | [] => some cap
      | c :: _ => if isWordChar c then none else some cap
  else none

/-- Left-to-right scan of the fourth pattern, carrying the previous
character for its leading word boundary. -/
def scanBare : Option Char → List Char → Option (List Char)
  | _, [] => none
  | prev, c :: rest =>
    match matchBareAt prev (c :: rest) with
    | some cap => some cap
    | none => scanBare (some c) rest

/-- Python `str.strip()`: surrounding whitespace removed. -/
def pyStrip (l : List Char) : List Char :=
  ((l.dropWhile Char.isWhitespace).reverse.dropWhile Char.isWhitespace).reverse

/-- `phone = re.sub(r'^tel:', '', phone)`: one leading `tel:` removed. -/
def stripTel (l : List Char) : List Char :=
  if ("tel:").data.isPrefixOf l then l.drop 4 else l

/-- The phone extraction of `extract_business_details`
(`google_scraper_v2.py` lines 218-234, `general_business_scraper.py` lines
272-288): the four patterns are tried in order over the whole page content
and the first match wins; the matched group is stripped of surrounding
whitespace and of a leading `tel:`. -/
def extract_phone (content : String) : Option String :=
  let cap := match scanFor matchTelAt content.data with
    | some c => some c
    | none =>
      match scanFor matchLabeledAt content.data with
      | some c => some c
      | none =>
        match scanFor matchMarkupAt content.data with
        | some c => some c
        | none => scanBare none content.data
  cap.map fun c => String.mk (stripTel (pyStrip c))

/-- The digits of a string, in order. -/
def digitsOf (s : String) : String := ⟨s.data.filter Char.isDigit⟩

/-- No occurrence of the tel-href key starts within the first `n`
positions of `l` (i.e. the tel link under discussion is the content's
first one). -/
abbrev noTelKeyBefore (l : List Char) (n : Nat) : Prop :=
  ∀ i < n, ¬ telKey.isPrefixOf (l.drop i)

/-- Value of a run of decimal digits. -/
def digitsToNat (l : List Char) : Nat :=
  l.foldl (fun n c => n * 10 + (c.toNat - 48)) 0

/-- Exact value of a `\d+\.?\d*` capture with integer digits `ip` and
fractional digits `fp`: what Python's `float()` parses, as a rational
(float rounding is not modelled). -/
def ratingValue (ip fp : List Char) : ℚ :=
  (digitsToNat ip : ℚ) + (digitsToNat fp : ℚ) / (10 : ℚ) ^ fp.length

/-- `\s*(?:star|★)` with `re.IGNORECASE`: optional whitespace, then the
word `star` in any case or the star glyph. -/
def starToken (l : List Char) : Bool :=
  let l1 := l.dropWhile Char.isWhitespace
  (((l1.take 4).map Char.toLower) == ("star").data) ||
    (match l1 with
     | c :: _ => c == '★'
     | [] => false)

/-- Attempt of the rating pattern `(\d+\.?\d*)\s*(?:star|★)` at one
position, returning the parsed capture.  The greedy single pass is exact:
shrinking `\d+` only shifts digits into `\d*`, and a shortened `\d*`
leaves a digit on which the star token can never start. -/
def matchRatingAt (l : List Char) : Option ℚ :=
  let ip := l.takeWhile Char.isDigit
  if ip.isEmpty then none
  else
    match l.drop ip.length with
    | '.' :: r =>
      let fp := r.takeWhile Char.isDigit
      if starToken (r.drop fp.length) then some (ratingValue ip fp) else none
    | l1 => if starToken l1 then some (ratingValue ip []) else none

/-- `re.search` of the rating pattern: leftmost match. -/
def scanRating : List Char → Option ℚ
  | [] => none
  | c :: rest =>
    match matchRatingAt (c :: rest) with
    | some q => some q
    | none => scanRating rest

/-- The rating extraction of `extract_business_details`
(`google_scraper_v2.py` lines 250-258, `general_business_scraper.py` lines
304-312): `re.search(r'(\d+\.?\d*)\s*(?:star|★)', page_content,
re.IGNORECASE)` parsed with `float(...)` (which always succeeds on this
capture shape); `None` when the pattern never matches. -/
def extract_rating (content : String) : Option ℚ :=
  scanRating content.data

/-- `aria_label.split()[0]`: the first whitespace-separated token, `none`
(an `IndexError` in the Python, caught by the bare `except`) when there is
none. -/
def firstToken (s : String) : Option (List Char) :=
  match s.data.dropWhile Char.isWhitespace with
  | [] => none
  | l => some (l.takeWhile fun c => !c.isWhitespace)

/-- Python `float(tok)` on a plain decimal token: optional sign and digits
with an optional fractional part; `none` models `ValueError`.  (The
exponent, infinity, nan and underscore forms `float` also accepts are not
exercised by rating labels and are not modelled.) -/
def parse_float (tok : List Char) : Option ℚ :=
  let p : ℚ × List Char := match tok with
    | '-' :: r => (-1, r)
    | '+' :: r => (1, r)
    | _ => (1, tok)
  let ip := p.2.takeWhile Char.isDigit
  match p.2.drop ip.length with
  | [] => if ip.isEmpty then none else some (p.1 * (digitsToNat ip : ℚ))
  | '.' :: r =>
    let fp := r.takeWhile Char.isDigit
    if (r.drop fp.length).isEmpty then
      (if ip.isEmpty && fp.isEmpty then none
       else some (p.1 * ratingValue ip fp))
    else none
  | _ => none

/-- The rating path of the v1 page extractor (`google_scraper.py` lines
224-234): `float(aria_label.split()[0])` inside a bare `try/except` whose
handler stores `None`; a missing rating element or label is also `None`. -/
def rating_from_aria (aria : Option String) : Option ℚ :=
  match aria with
  | none => none
  | some t =>
    match firstToken t with
    | none => none
    | some tok => parse_float tok

/-- Fixture: a store with no rows and zeroed counters. -/
def emptyStore : Store := ⟨[], 0, 0, 0, 0⟩

/-- Fixture: a record with a profile url, as the witnesses instantiate
it. -/
def recA : BRecord :=
  { name := some "Acme Plumbing"
    phone := some "815-555-0100"
    address := some "1 Main St"
    rating := some 4
    gbp_url := some "https://g.example/acme"
    has_website := false
    website_url := none }

/-- Fixture: a second sighting of the same profile url with different
field values. -/
def recB : BRecord :=
  { name := some "Acme Plumbing LLC"
    phone := some "815-555-0199"
    address := some "2 Oak Ave"
    rating := some 5
    gbp_url := some "https://g.example/acme"
    has_website := true
    website_url := some "https://acme.example" }

/-- A list is unchanged by mapping a function that fixes each of its
elements. -/
theorem map_fix {α : Type} (f : α → α) (l : List α) (h : ∀ a ∈ l, f a = a) :
    l.map f = l := by
  induction l with
  | nil => rfl
  | cons x xs ih =>
    simp only [List.map_cons, h x (List.mem_cons_self x xs),
      ih fun a ha => h a (List.mem_cons_of_mem x ha)]

/-- SQL equality with a non-NULL parameter holds exactly on that value. -/
theorem sqlEq_some_iff (c : Option String) (u : String) :
    sqlEq c (some u) = true ↔ c = some u := by
  cases c <;> simp [sqlEq]

/-- A non-empty string is Python-truthy. -/
theorem truthy_some {u : String} (hu : u ≠ "") : truthy (some u) = true := by
  have h : u.isEmpty = false := by
    cases h : u.isEmpty
    · rfl
    · exact absurd (String.isEmpty_iff u |>.mp h) hu
  simp [truthy, h]

/-- For a record with a non-empty `gbp_url`, the WHERE clause is the
`gbp_url` comparison alone. -/
theorem matchesBusiness_of_url {b : BRecord} {u : String} (loc : String)
    (hu : u ≠ "") (hb : b.gbp_url = some u) (r : Row) :
    matchesBusiness b loc r = (r.gbp_url == some u) := by
  rw [matchesBusiness, hb, truthy_some hu]
  simp only [if_true]
  cases r.gbp_url <;> simp [sqlEq]

/-- On a SELECT miss (and no injected failure) `save_business` appends the
inserted row. -/
theorem save_business_insert_rows (s : Store) (b : BRecord)
    (loc cat : String) (now : Nat)
    (hf : s.rows.find? (matchesBusiness b loc) = none) :
    (save_business s b loc cat now none).rows
      = s.rows ++ [insertRow b loc cat] := by
  cases hb : b.has_website <;> simp [save_business, hf, hb]

/-- On a SELECT miss the new-business counter is incremented. -/
theorem save_business_insert_added (s : Store) (b : BRecord)
    (loc cat : String) (now : Nat)
    (hf : s.rows.find? (matchesBusiness b loc) = none) :
    (save_business s b loc cat now none).new_businesses_added
      = s.new_businesses_added + 1 := by
  cases hb : b.has_website <;> simp [save_business, hf, hb]

/-- On a SELECT hit (and no injected failure) `save_business` UPDATEs every
matching row in place. -/
theorem save_business_update_rows (s : Store) (b : BRecord)
    (loc cat : String) (now : Nat) (r0 : Row)
    (hf : s.rows.find? (matchesBusiness b loc) = some r0) :
    (save_business s b loc cat now none).rows
      = s.rows.map fun r =>
          if matchesBusiness b loc r then
            (if truthy b.gbp_url then updateByUrl b now r
             else updateByNameCity b now r)
          else r := by
  cases hb : b.has_website <;> simp [save_business, hf, hb]

/-- On a SELECT hit the new-business counter is unchanged. -/
theorem save_business_update_added (s : Store) (b : BRecord)
    (loc cat : String) (now : Nat) (r0 : Row)
    (hf : s.rows.find? (matchesBusiness b loc) = some r0) :
    (save_business s b loc cat now none).new_businesses_added
      = s.new_businesses_added := by
  cases hb : b.has_website <;> simp [save_business, hf, hb]

/-- `save_business` never touches `businesses_found` (that counter is the
caller's). -/
theorem save_business_found (s : Store) (b : BRecord) (loc cat : String)
    (now : Nat) (f : Option FailPoint) :
    (save_business s b loc cat now f).businesses_found
      = s.businesses_found := by
  rcases f with _ | fp
  · cases hf : s.rows.find? (matchesBusiness b loc) <;>
      cases hb : b.has_website <;> simp [save_business, hf, hb]
  · cases fp <;>
      cases hf : s.rows.find? (matchesBusiness b loc) <;>
        simp [save_business, hf]

/-- `takeWhile` keeps a list all of whose elements satisfy the
predicate. -/
theorem takeWhile_all {α : Type} (p : α → Bool) (l : List α)
    (h : ∀ a ∈ l, p a = true) : l.takeWhile p = l := by
  induction l with
  | nil => rfl
  | cons x xs ih =>
    rw [List.takeWhile_cons, h x (List.mem_cons_self x xs)]
    simp [ih fun a ha => h a (List.mem_cons_of_mem x ha)]

/-- `takeWhile` stops exactly at the first failing element. -/
theorem takeWhile_before {α : Type} (p : α → Bool) (l1 l2 : List α) (x : α)
    (h : ∀ a ∈ l1, p a = true) (hx : p x = false) :
    (l1 ++ x :: l2).takeWhile p = l1 := by
  induction l1 with
  | nil => simp [List.takeWhile_cons, hx]
  | cons y ys ih =>
    rw [List.cons_append, List.takeWhile_cons, h y (List.mem_cons_self y ys)]
    simp [ih fun a ha => h a (List.mem_cons_of_mem y ha)]

/-- The followed-by-wait discipline is closed under concatenation. -/
theorem navFollowedByWait_append (a b : List Ev)
    (ha : navFollowedByWait a = true) (hb : navFollowedByWait b = true) :
    navFollowedByWait (a ++ b) = true := by
  induction a with
  | nil => simpa using hb
  | cons e rest ih =>
    cases rest with
    | nil =>
      cases b with
      | nil => simpa using ha
      | cons f bs =>
        simp only [List.cons_append, List.nil_append, navFollowedByWait,
          Bool.and_eq_true, Bool.or_eq_true] at *
        exact ⟨Or.inl ha, hb⟩
    | cons r rs =>
      simp only [navFollowedByWait, Bool.and_eq_true] at ha
      simp only [List.cons_append, navFollowedByWait, Bool.and_eq_true]
      exact ⟨by simpa using ha.1, by simpa using ih ha.2⟩

/-- Every pagination-loop trace satisfies the followed-by-wait
discipline. -/
theorem paginate_tr_wait_follows (hasNext : Nat → Bool) (fuel pc : Nat) :
    navFollowedByWait (paginate_tr hasNext fuel pc) = true := by
  induction fuel generalizing pc with
  | zero => rfl
  | succ n ih =>
    rw [paginate_tr]
    cases h : hasNext pc
    · simp [h, navFollowedByWait]
    · simp only [h, if_true]
      exact navFollowedByWait_append _ _ (by decide) (ih (pc + 1))

/-- The listing loop with `fuel` iterations left yields at most `fuel`
entries. -/
theorem listing_loop_go_length {α : Type} (resolve : Nat → List α)
    (fuel i : Nat) : (listing_loop_go resolve fuel i).length ≤ fuel := by
  induction fuel generalizing i with
  | zero => simp [listing_loop_go]
  | succ n ih =>
    rw [listing_loop_go]
    split
    · simpa using Nat.succ_le_succ (ih (i + 1))
    · simp

/-- Every entry the listing loop yields was read at an in-range index of
the freshly re-resolved collection. -/
theorem listing_loop_go_mem {α : Type} (resolve : Nat → List α)
    (fuel i : Nat) (j : Nat) (x : α)
    (h : (j, x) ∈ listing_loop_go resolve fuel i) :
    j < (resolve j).length ∧ x ∈ resolve j := by
  induction fuel generalizing i with
  | zero => simp [listing_loop_go] at h
  | succ n ih =>
    rw [listing_loop_go] at h
    by_cases hc : i < (resolve i).length
    · rw [dif_pos hc] at h
      rcases List.mem_cons.mp h with he | he
      · simp only [Prod.mk.injEq] at he
        obtain ⟨rfl, rfl⟩ := he
        exact ⟨hc, List.get_mem _ _ _⟩
      · exact ih (i + 1) he
    · rw [dif_neg hc] at h
      cases h

/-- The listing loop stops exactly at the first index at or beyond the
re-resolved collection's length. -/
theorem listing_loop_go_stops {α : Type} (resolve : Nat → List α)
    (fuel i k : Nat) (hik : i ≤ k) (hk : k < i + fuel)
    (hbefore : ∀ j, i ≤ j → j < k → j < (resolve j).length)
    (hstop : (resolve k).length ≤ k) :
    (listing_loop_go resolve fuel i).length = k - i := by
  induction fuel generalizing i with
  | zero => omega
  | succ n ih =>
    rw [listing_loop_go]
    rcases Nat.eq_or_lt_of_le hik with he | hlt
    · subst he
      rw [dif_neg (by omega)]
      simp
    · rw [dif_pos (hbefore i le_rfl hlt)]
      rw [List.length_cons, ih (i + 1) hlt (by omega)
        (fun j hj1 hj2 => hbefore j (by omega) hj2)]
      omega

/-- A scan may skip positions on which the matcher fails. -/
theorem scanFor_skip (m : List Char → Option (List Char)) :
    ∀ (n : Nat) (l : List Char), (∀ i < n, m (l.drop i) = none) →
      scanFor m l = scanFor m (l.drop n)
  | 0, l, _ => by simp
  | n + 1, [], _ => by simp
  | n + 1, c :: rest, h => by
    have h0 := h 0 (Nat.succ_pos n)
    rw [List.drop_zero] at h0
    rw [scanFor, h0, List.drop_succ_cons]
    exact scanFor_skip m n rest fun i hi => by
      have := h (i + 1) (Nat.succ_lt_succ hi)
      simpa using this

/-- At the tel key itself, the scan captures the number up to the closing
quote, whatever follows. -/
theorem scanFor_tel_at_key (post : List Char) :
    scanFor matchTelAt (("href=\"tel:+18155551234\"").data ++ post)
      = some (("+18155551234").data) := rfl

/-- A parsed rating capture is nonnegative. -/
theorem ratingValue_nonneg (ip fp : List Char) : 0 ≤ ratingValue ip fp := by
  unfold ratingValue
  have h1 : (0 : ℚ) ≤ (digitsToNat ip : ℚ) := Nat.cast_nonneg _
  have h2 : (0 : ℚ) ≤ (digitsToNat fp : ℚ) / (10 : ℚ) ^ fp.length :=
    div_nonneg (Nat.cast_nonneg _) (pow_nonneg (by norm_num) _)
  linarith

/-- A rating matched at any one position is nonnegative. -/
theorem matchRatingAt_nonneg (l : List Char) (q : ℚ)
    (h : matchRatingAt l = some q) : 0 ≤ q := by
  simp only [matchRatingAt] at h
  split at h
  · cases h
  · split at h
    · split at h
      · injection h with h2
        subst h2
        exact ratingValue_nonneg _ _
      · cases h
    · split at h
      · injection h with h2
        subst h2
        exact ratingValue_nonneg _ _
      · cases h

/-- A rating found anywhere by the scan is nonnegative. -/
theorem scanRating_nonneg (l : List Char) (q : ℚ)
    (h : scanRating l = some q) : 0 ≤ q := by
  induction l with
  | nil => cases h
  | cons c rest ih =>
    rw [scanRating] at h
    revert h
    split
    · intro h
      injection h with h2
      subst h2
      next heq => exact matchRatingAt_nonneg _ _ heq
    · intro h
      exact ih h

/-- Content without a digit has no rating match. -/
theorem scanRating_no_digits (l : List Char)
    (h : ∀ c ∈ l, c.isDigit = false) : scanRating l = none := by
  induction l with
  | nil => rfl
  | cons c rest ih =>
    have hm : matchRatingAt (c :: rest) = none := by
      simp [matchRatingAt, List.takeWhile_cons,
        h c (List.mem_cons_self c rest)]
    rw [scanRating, hm]
    exact ih fun a ha => h a (List.mem_cons_of_mem c ha)

/-- C1: for a record whose `sourceUrl` (`gbp_url`) is a non-empty string
not yet present in the store, upserting its identity twice first INSERTs
(incrementing the new-business counter) and then matches by `gbp_url` and
UPDATEs without inserting: after both upserts exactly one row carries that
`gbp_url`, its mutable fields (name, phone, address, website flag and url,
rating) are the second record's values and its `last_scraped` is the
second upsert's time; and for a record whose `gbp_url` is not truthy the
lookup key falls back to the pair `(name, city)` with the city derived
from the location argument. -/
theorem upsert_twice_one_row (s : Store) (b1 b2 : BRecord) (u : String)
    (loc1 cat1 loc2 cat2 : String) (t1 t2 : Nat)
    (hu : u ≠ "") (h1 : b1.gbp_url = some u) (h2 : b2.gbp_url = some u)
    (hfresh : ∀ r ∈ s.rows, r.gbp_url ≠ some u) :
    (save_business s b1 loc1 cat1 t1 none).rows
        = s.rows ++ [insertRow b1 loc1 cat1] ∧
    (save_business s b1 loc1 cat1 t1 none).new_businesses_added
        = s.new_businesses_added + 1 ∧
    (save_business (save_business s b1 loc1 cat1 t1 none) b2 loc2 cat2 t2
        none).rows
        = s.rows ++ [updateByUrl b2 t2 (insertRow b1 loc1 cat1)] ∧
    (save_business (save_business s b1 loc1 cat1 t1 none) b2 loc2 cat2 t2
        none).new_businesses_added
        = (save_business s b1 loc1 cat1 t1 none).new_businesses_added ∧
    ((save_business (save_business s b1 loc1 cat1 t1 none) b2 loc2 cat2 t2
        none).rows.countP fun r => r.gbp_url == some u) = 1 ∧
    (∀ r ∈ (save_business (save_business s b1 loc1 cat1 t1 none) b2 loc2
        cat2 t2 none).rows,
      r.gbp_url = some u →
        r.name = b2.name ∧ r.phone = b2.phone ∧ r.address = b2.address ∧
        r.has_website = b2.has_website ∧ r.website_url = b2.website_url ∧
        r.google_rating = b2.rating ∧ r.last_scraped = some t2) ∧
    (∀ (b : BRecord) (loc : String) (r : Row), truthy b.gbp_url = false →
      matchesBusiness b loc r
        = (sqlEq r.name b.name && r.city == cityOf loc)) := by
  have hmb1 := matchesBusiness_of_url (b := b1) loc1 hu h1
  have hmb2 := matchesBusiness_of_url (b := b2) loc2 hu h2
  have hfr : ∀ r ∈ s.rows, (r.gbp_url == some u) = false := fun r hr =>
    beq_eq_false_iff_ne.mpr (hfresh r hr)
  have hfind1 : s.rows.find? (matchesBusiness b1 loc1) = none := by
    rw [List.find?_eq_none]
    intro r hr
    rw [hmb1 r, hfr r hr]
    exact Bool.false_ne_true
  have hfind2a : s.rows.find? (matchesBusiness b2 loc2) = none := by
    rw [List.find?_eq_none]
    intro r hr
    rw [hmb2 r, hfr r hr]
    exact Bool.false_ne_true
  have hrow1 : (insertRow b1 loc1 cat1).gbp_url = some u := by
    simp [insertRow, h1]
  have hs1rows := save_business_insert_rows s b1 loc1 cat1 t1 hfind1
  have hs1add := save_business_insert_added s b1 loc1 cat1 t1 hfind1
  have hmatch1 : matchesBusiness b2 loc2 (insertRow b1 loc1 cat1) = true := by
    rw [hmb2, hrow1]
    exact beq_self_eq_true (some u)
  have hfind2 : (save_business s b1 loc1 cat1 t1 none).rows.find?
      (matchesBusiness b2 loc2) = some (insertRow b1 loc1 cat1) := by
    rw [hs1rows, List.find?_append, hfind2a, Option.none_or]
    simp [List.find?, hmatch1]
  have htr2 : truthy b2.gbp_url = true := by
    rw [h2]
    exact truthy_some hu
  have hmapfix : (s.rows.map fun r =>
      if matchesBusiness b2 loc2 r then
        (if truthy b2.gbp_url then updateByUrl b2 t2 r
         else updateByNameCity b2 t2 r)
      else r) = s.rows := by
    apply map_fix
    intro r hr
    rw [hmb2 r, hfr r hr]
    simp
  have hs2rows : (save_business (save_business s b1 loc1 cat1 t1 none) b2
      loc2 cat2 t2 none).rows
      = s.rows ++ [updateByUrl b2 t2 (insertRow b1 loc1 cat1)] := by
    rw [save_business_update_rows _ b2 loc2 cat2 t2 _ hfind2, hs1rows,
      List.map_append, hmapfix]
    simp [hmatch1, htr2]
  have hupdurl : (updateByUrl b2 t2 (insertRow b1 loc1 cat1)).gbp_url
      = some u := by
    simp [updateByUrl, hrow1]
  refine ⟨hs1rows, hs1add, hs2rows,
    save_business_update_added _ b2 loc2 cat2 t2 _ hfind2, ?_, ?_, ?_⟩
  · rw [hs2rows, List.countP_append]
    have hz : (s.rows.countP fun r => r.gbp_url == some u) = 0 :=
      List.countP_eq_zero.mpr fun r hr => by
        rw [hfr r hr]
        exact Bool.false_ne_true
    rw [hz]
    simp [List.countP, List.countP.go, hupdurl]
  · intro r hr hru
    rw [hs2rows] at hr
    rcases List.mem_append.mp hr with hmem | hmem
    · exact absurd hru (hfresh r hmem)
    · have heq : r = updateByUrl b2 t2 (insertRow b1 loc1 cat1) :=
        List.mem_singleton.mp hmem
      subst heq
      simp [updateByUrl, insertRow]
  · intro b loc r hb
    simp [matchesBusiness, hb]

/-- Witness for C1: `upsert_twice_one_row` at an empty store and two
concrete sightings of one profile url, projected to the one-row count. -/
theorem upsert_twice_one_row_witness :
    ((save_business (save_business emptyStore recA "Shorewood, IL"
          "plumber" 1 none) recB "Joliet, IL" "dentist" 2 none).rows.countP
        fun r => r.gbp_url == some "https://g.example/acme") = 1 :=
  (upsert_twice_one_row emptyStore recA recB "https://g.example/acme"
      "Shorewood, IL" "plumber" "Joliet, IL" "dentist" 1 2
      (by decide) rfl rfl
      (fun r hr => absurd hr (List.not_mem_nil r))).2.2.2.2.1

/-- C2: when any database call of the upsert fails (constraint violation,
connection error — the SELECT, the UPDATE/INSERT or the COMMIT), the
transaction is rolled back (the committed rows are unchanged), the error
is logged, and `save_business` — a total function here because its body is
wrapped in `try/except` — returns to its caller instead of raising, so the
enclosing crawl loop still processes every record of every pair, whatever
failures are injected. -/
theorem save_failure_rolled_back_crawl_continues :
    (∀ (s : Store) (b : BRecord) (loc cat : String) (now : Nat)
        (f : Option FailPoint), f ≠ none →
      (save_business s b loc cat now f).rows = s.rows ∧
      (save_business s b loc cat now f).errors_logged
        = s.errors_logged + 1) ∧
    (∀ (s : Store) (bs : List BRecord) (loc cat : String) (now : Nat)
        (failures : Nat → Option FailPoint),
      (process_businesses s bs loc cat now failures).businesses_found
        = s.businesses_found + bs.length) := by
  constructor
  · intro s b loc cat now f hf
    rcases f with _ | fp
    · exact absurd rfl hf
    · cases fp <;>
        cases hfind : s.rows.find? (matchesBusiness b loc) <;>
          simp [save_business, hfind]
  · intro s bs loc cat now failures
    induction bs generalizing s failures with
    | nil => simp [process_businesses]
    | cons b bs ih =>
      rw [process_businesses, ih]
      simp [save_business_found]
      omega

/-- Counterexample to C3: (a) with all four handles set, a failing
`page.close()` leaves the context, browser and database closes never
attempted — the releases are not independent; (b) an exception in
`init_database()` (which runs before the `try`) exits `run_scrape` without
`cleanup` ever running. -/
theorem cleanup_not_independent_counterexample :
    ((run_scrape ⟨false, false, false, false⟩
        ⟨true, false, false, false⟩).cleanupResult
      = some ⟨true, false, false, false, true⟩) ∧
    (run_scrape ⟨false, true, false, false⟩
        ⟨false, false, false, false⟩).cleanupRan = false := by
  decide

/-- C3 as amended: cleanup is executed on every exit of the `try` block
entered after initialisation (normal completion and crawl exception), but
an exception in `init_browser`, `init_database` or `create_scrape_run`
exits `run_scrape` without cleanup; within `cleanup` the four handles are
closed sequentially in the order page, context, browser, database, and an
error closing one handle prevents attempting the remaining ones. -/
theorem run_scrape_cleanup_discipline :
    ∀ (ib idb icr il p c br db : Bool),
      (((ib || idb || icr) = false →
          (run_scrape ⟨ib, idb, icr, il⟩ ⟨p, c, br, db⟩).cleanupRan = true ∧
          (run_scrape ⟨ib, idb, icr, il⟩ ⟨p, c, br, db⟩).cleanupResult
            = some (cleanup ⟨true, true, true, true⟩ ⟨p, c, br, db⟩)) ∧
        ((ib || idb || icr) = true →
          (run_scrape ⟨ib, idb, icr, il⟩
            ⟨p, c, br, db⟩).cleanupRan = false)) ∧
      ((cleanup ⟨true, true, true, true⟩ ⟨p, c, br, db⟩).pageAttempted
          = true ∧
        (cleanup ⟨true, true, true, true⟩ ⟨p, c, br, db⟩).contextAttempted
          = !p ∧
        (cleanup ⟨true, true, true, true⟩ ⟨p, c, br, db⟩).browserAttempted
          = (!p && !c) ∧
        (cleanup ⟨true, true, true, true⟩ ⟨p, c, br, db⟩).dbAttempted
          = (!p && !c && !br)) := by
  decide

/-- C4: a query whose results marker never appears yields zero records (so
does one whose initial navigation times out — both are caught inside the
query, which is a total function here, so nothing propagates past the
query boundary), and the orchestrator's loop still visits every (location,
category) pair of the cross product in order, recording for each exactly
what its query returned. -/
theorem no_marker_yields_zero_and_crawl_proceeds :
    (∀ (o : QueryOracle) (maxPages : Nat), o.marker = false →
      search_businesses o maxPages = []) ∧
    (∀ (o : QueryOracle) (maxPages : Nat), o.gotoTimeout = true →
      search_businesses o maxPages = []) ∧
    (∀ (oracle : String × String → QueryOracle) (maxPages : Nat)
        (locations categories : List String),
      (run_queries oracle maxPages (crawl_pairs locations categories)).map
        Prod.fst = crawl_pairs locations categories) ∧
    (∀ (oracle : String × String → QueryOracle) (maxPages : Nat)
        (ps : List (String × String))
        (e : (String × String) × List BRecord),
      e ∈ run_queries oracle maxPages ps →
        e.2 = search_businesses (oracle e.1) maxPages) := by
  refine ⟨?_, ?_, ?_, ?_⟩
  · intro o maxPages h
    cases hg : o.gotoTimeout <;> simp [search_businesses, h, hg]
  · intro o maxPages h
    simp [search_businesses, h]
  · intro oracle maxPages locations categories
    generalize crawl_pairs locations categories = ps
    induction ps with
    | nil => rfl
    | cons p ps ih => simp [run_queries, ih]
  · intro oracle maxPages ps e he
    induction ps with
    | nil => cases he
    | cons p ps ih =>
      rcases List.mem_cons.mp he with h | h
      · subst h
        rfl
      · exact ih h

/-- Counterexample to C5: in the trace of a one-pair run whose query finds
its marker (`[sessionCheck, navGoto, politeWait, politeWait]`), the
initial search navigation has no pacing wait anywhere before it, so not
every navigation is preceded by the pacing wait. -/
theorem first_navigation_unpaced_counterexample :
    ¬ navPrecededByWait (run_tr 1 [(true, fun _ => false)]) := by
  unfold navPrecededByWait
  decide

/-- C5 as amended: the pacing wait immediately follows each outbound
navigation (`polite_delay()` is called right after the initial search
`goto` and right after each pagination click sequence) rather than
preceding it; hence consecutive navigations are always separated by a
wait, but the first navigation of a run happens with no pacing wait before
it, as the counterexample shows. -/
theorem pacing_wait_follows_every_navigation (maxPages : Nat)
    (queries : List (Bool × (Nat → Bool))) :
    navFollowedByWait (run_tr maxPages queries) = true := by
  induction queries with
  | nil => rfl
  | cons q qs ih =>
    rw [run_tr]
    have h1 : navFollowedByWait (search_tr q.1 q.2 maxPages) = true := by
      rw [search_tr]
      apply navFollowedByWait_append _ _ (by decide)
      cases h : q.1
      · simp [h, navFollowedByWait]
      · simp only [h, if_true]
        exact paginate_tr_wait_follows q.2 (maxPages - 1) 1
    have h2 := navFollowedByWait_append _ _
      (by decide : navFollowedByWait [Ev.politeWait] = true) ih
    rw [List.append_assoc]
    exact navFollowedByWait_append _ _ h1 h2

/-- C6: the per-listing loop processes at most 20 listings; every access
it performs reads an in-range index of the collection re-resolved for that
very iteration; and as soon as the loop index reaches or passes the
re-resolved collection's length the loop stops, having processed exactly
the indices before that point. -/
theorem listing_loop_bounded_and_guarded :
    (∀ (α : Type) (resolve : Nat → List α) (nLinks : Nat),
      (listing_loop resolve nLinks).length ≤ 20) ∧
    (∀ (α : Type) (resolve : Nat → List α) (nLinks i : Nat) (x : α),
      (i, x) ∈ listing_loop resolve nLinks →
        i < (resolve i).length ∧ x ∈ resolve i) ∧
    (∀ (α : Type) (resolve : Nat → List α) (nLinks k : Nat),
      k < min 20 nLinks →
      (∀ j, j < k → j < (resolve j).length) →
      (resolve k).length ≤ k →
      (listing_loop resolve nLinks).length = k) := by
  refine ⟨?_, ?_, ?_⟩
  · intro α resolve nLinks
    exact le_trans (listing_loop_go_length resolve _ 0)
      (Nat.min_le_left _ _)
  · intro α resolve nLinks i x h
    exact listing_loop_go_mem resolve _ 0 i x h
  · intro α resolve nLinks k h1 h2 h3
    have h4 := listing_loop_go_stops resolve (min 20 nLinks) 0 k
      (Nat.zero_le k) (by omega) (fun j _ hj => h2 j hj) h3
    simpa using h4

/-- Counterexample to C7: in the click-through scrapers a listing whose
name extraction yields nothing is not discarded — a record is still
produced, carrying the placeholder name `Business 1` (for index 0), and
handed to the persistence callback. -/
theorem placeholder_name_counterexample :
    (process_listing none 0 (some ⟨none, none, none, false, none⟩)
        "https://g.example/b1").isSome = true ∧
    (process_listing none 0 (some ⟨none, none, none, false, none⟩)
        "https://g.example/b1").map (fun b => b.name)
      = some (some "Business 1") := by
  decide

/-- C7 as amended: only the v1 page extractor discards a listing whose
extracted name is `None` or empty; the click-through scrapers instead
substitute the placeholder `Business ⟨i+1⟩` for a missing name and still
produce (and persist) a record whenever detail extraction succeeds, while
a failed detail extraction is the only case that produces no record. -/
theorem listing_name_required_only_in_v1 :
    keep_listing_v1 none = false ∧
    keep_listing_v1 (some "") = false ∧
    (∀ s : String, s ≠ "" → keep_listing_v1 (some s) = true) ∧
    (∀ (i : Nat) (d : DetailFields) (u : String),
      process_listing none i (some d) u
        = some { name := some ("Business " ++ toString (i + 1))
                 phone := d.phone
                 address := d.address
                 rating := d.rating
                 gbp_url := some u
                 has_website := d.has_website
                 website_url := d.website_url }) ∧
    (∀ (n : String) (i : Nat) (d : DetailFields) (u : String),
      (process_listing (some n) i (some d) u).map (fun b => b.name)
        = some (some n)) ∧
    (∀ (en : Option String) (i : Nat) (u : String),
      process_listing en i none u = none) := by
  refine ⟨rfl, rfl, ?_, ?_, ?_, ?_⟩
  · intro s hs
    exact truthy_some hs
  · intro i d u
    rfl
  · intro n i d u
    rfl
  · intro en i u
    rfl

/-- C8: for any detail view whose content carries
`href="tel:+18155551234"` as its first tel link, phone extraction
succeeds with exactly `+18155551234`: the `tel:` scheme prefix is gone
from the result, and its digits are `18155551234` — the NANP country code
`1` followed by the claimed `8155551234`. -/
theorem tel_href_extraction (pre post : String)
    (h : noTelKeyBefore
      (pre ++ "href=\"tel:+18155551234\"" ++ post).data pre.data.length) :
    extract_phone (pre ++ "href=\"tel:+18155551234\"" ++ post)
      = some "+18155551234" ∧
    ("tel:").data.isPrefixOf ("+18155551234").data = false ∧
    digitsOf "+18155551234" = "1" ++ "8155551234" := by
  refine ⟨?_, rfl, rfl⟩
  have hdata : (pre ++ "href=\"tel:+18155551234\"" ++ post).data
      = pre.data ++ (("href=\"tel:+18155551234\"").data ++ post.data) := by
    simp [String.data_append]
  have hnone : ∀ i < pre.data.length,
      matchTelAt
        ((pre ++ "href=\"tel:+18155551234\"" ++ post).data.drop i)
        = none := by
    intro i hi
    unfold matchTelAt
    rw [if_neg (h i hi)]
  have hscan : scanFor matchTelAt
      (pre ++ "href=\"tel:+18155551234\"" ++ post).data
      = some (("+18155551234").data) := by
    rw [scanFor_skip matchTelAt pre.data.length _ hnone, hdata,
      List.drop_left]
    exact scanFor_tel_at_key post.data
  simp only [extract_phone, hscan]
  rfl

/-- Witness for C8: `tel_href_extraction` at a concrete detail view. -/
theorem tel_href_extraction_witness :
    extract_phone ("<div>" ++ "href=\"tel:+18155551234\"" ++ "</a>")
      = some "+18155551234" ∧
    ("tel:").data.isPrefixOf ("+18155551234").data = false ∧
    digitsOf "+18155551234" = "1" ++ "8155551234" :=
  tel_href_extraction "<div>" "</a>" (by decide)

/-- Counterexample to C9: the rating regex happily matches a value above
the claimed interval — content `<span>9.9 stars</span>` yields the rating
`9.9`, which is not in `[0, 5]`; the code enforces no upper bound. -/
theorem rating_above_five_counterexample :
    extract_rating "<span>9.9 stars</span>" = some (99 / 10) ∧
    ¬ ((99 : ℚ) / 10 ≤ 5) := by
  constructor
  · have h1 : extract_rating "<span>9.9 stars</span>"
        = some (ratingValue ['9'] ['9']) := rfl
    have hd : digitsToNat ['9'] = 9 := rfl
    rw [h1, ratingValue, hd]
    norm_num
  · norm_num

/-- C9 as amended: a present rating is a nonnegative value parsed from a
digit-led numeric token, with no upper bound enforced (the counterexample
shows 9.9 being stored); when no rating token occurs the field is `None`,
never an error, and the v1 aria-label path likewise stores `None` for a
missing label or an unparseable first token. -/
theorem rating_nonneg_or_absent :
    (∀ (content : String) (q : ℚ),
      extract_rating content = some q → 0 ≤ q) ∧
    (∀ content : String, (∀ c ∈ content.data, c.isDigit = false) →
      extract_rating content = none) ∧
    rating_from_aria none = none ∧
    rating_from_aria (some "Rated stars") = none := by
  refine ⟨?_, ?_, rfl, rfl⟩
  · intro content q h
    exact scanRating_nonneg _ _ h
  · intro content h
    exact scanRating_no_digits _ h

/-- C10: the city stored with every inserted row and used as the
identity-fallback key is `location.split(',')[0]` — the portion of the
location before its first comma, the whole string when no comma occurs —
so `Chicago, IL` and `Chicago` derive the same city (and one upserted
record under each resolves to a single row), while `Chicago, IL` and the
bare ZIP `60601` never share an identity (the same record upserted under
each yields two rows). -/
theorem city_before_first_comma :
    (∀ loc : String, ',' ∉ loc.data → cityOf loc = loc) ∧
    (∀ pre post : String, ',' ∉ pre.data →
      cityOf (pre ++ "," ++ post) = pre) ∧
    cityOf "Chicago, IL" = "Chicago" ∧
    cityOf "Chicago" = "Chicago" ∧
    cityOf "60601" = "60601" ∧
    (∀ (b : BRecord) (loc cat : String),
      (insertRow b loc cat).city = cityOf loc) ∧
    (save_business (save_business emptyStore
        ⟨some "Acme", none, none, none, none, false, none⟩
        "Chicago, IL" "plumber" 1 none)
      ⟨some "Acme", none, none, none, none, false, none⟩
      "Chicago" "plumber" 2 none).rows.length = 1 ∧
    (save_business (save_business emptyStore
        ⟨some "Acme", none, none, none, none, false, none⟩
        "Chicago, IL" "plumber" 1 none)
      ⟨some "Acme", none, none, none, none, false, none⟩
      "60601" "plumber" 2 none).rows.length = 2 := by
  refine ⟨?_, ?_, by decide, by decide, by decide, fun b loc cat => rfl,
    by decide, by decide⟩
  · intro loc h
    have hall : loc.data.takeWhile (fun c => !(c == ',')) = loc.data := by
      apply takeWhile_all
      intro c hc
      simp only [Bool.not_eq_true']
      exact beq_eq_false_iff_ne.mpr fun he => h (he ▸ hc)
    show (⟨loc.data.takeWhile (fun c => !(c == ','))⟩ : String) = loc
    rw [hall]
  · intro pre post h
    have hdata : (pre ++ "," ++ post).data
        = pre.data ++ ',' :: post.data := by
      simp [String.data_append]
    have hall : ∀ c ∈ pre.data, (fun c => !(c == ',')) c = true := by
      intro c hc
      simp only [Bool.not_eq_true']
      exact beq_eq_false_iff_ne.mpr fun he => h (he ▸ hc)
    show (⟨(pre ++ "," ++ post).data.takeWhile
      (fun c => !(c == ','))⟩ : String) = pre
    rw [hdata, takeWhile_before _ _ _ _ hall (by simp)]

end WebLeadGen
